import Mathlib

/-!
Shallow embedding of the CrisisNavigator enrichment pipeline
(app.py, gemini_processor.py, disaster_ingest.py).

Python dictionaries/lists that flow through the pipeline are modelled by the
dynamic value type `PyVal`; operations that can raise in Python return
`Except PyErr`, and the source's `try/except` blocks become explicit matches
on those results.  Text processing (the severity extractors, the image-url
selectors) is modelled character-by-character over `List Char`, restricted to
ASCII text, mirroring the regular expressions and string methods used by the
source.
-/

namespace CrisisNav

/-- Python-like dynamic values as they occur in event documents. -/
inductive PyVal where
  | pnone : PyVal
  | pbool : Bool → PyVal
  | pint : Int → PyVal
  | pstr : String → PyVal
  | plist : List PyVal → PyVal
  | pdict : List (String × PyVal) → PyVal

/-- The Python exceptions the embedded code can raise. -/
inductive PyErr where
  | keyError
  | typeError
  | attributeError
  | indexError
deriving DecidableEq

/-- `v[k]` for a string key `k`: dictionary lookup raising KeyError when the
key is absent; subscripting any non-dict value with a string raises TypeError
(as in Python). -/
def PyVal.subscript (v : PyVal) (k : String) : Except PyErr PyVal :=
  match v with
  | .pdict kvs =>
      match kvs.lookup k with
      | some x => Except.ok x
      | none => Except.error PyErr.keyError
  | _ => Except.error PyErr.typeError

/-- Python `v.get(k, d)`: total on dicts; on any non-dict value the attribute
access itself raises AttributeError. -/
def PyVal.dictGet (v : PyVal) (k : String) (d : PyVal) : Except PyErr PyVal :=
  match v with
  | .pdict kvs => Except.ok ((kvs.lookup k).getD d)
  | _ => Except.error PyErr.attributeError

/-- Python truthiness of a value. -/
def PyVal.truthy : PyVal → Bool
  | .pnone => false
  | .pbool b => b
  | .pint n => n != 0
  | .pstr s => s != ""
  | .plist xs => !xs.isEmpty
  | .pdict kvs => !kvs.isEmpty

/-- Python `for x in v`: lists yield their elements, strings their
one-character strings, dicts their keys; other values raise TypeError. -/
def PyVal.iterElems : PyVal → Except PyErr (List PyVal)
  | .plist xs => Except.ok xs
  | .pstr s => Except.ok (s.toList.map fun c => PyVal.pstr (String.singleton c))
  | .pdict kvs => Except.ok (kvs.map fun kv => PyVal.pstr kv.1)
  | _ => Except.error PyErr.typeError

/-- The uncaught traversal inside `safe_get` of app.py. -/
def safeGetRun : PyVal → List String → Except PyErr PyVal
  | v, [] => Except.ok v
  | v, k :: ks =>
      match v.subscript k with
      | Except.ok v2 => safeGetRun v2 ks
      | Except.error e => Except.error e

/-- `safe_get` from app.py: traverse nested keys, returning `default` when the
traversal raises (KeyError/TypeError). -/
def safe_get (v : PyVal) (keys : List String) (default : PyVal) : PyVal :=
  match safeGetRun v keys with
  | Except.ok r => r
  | Except.error _ => default

/-! ### ASCII text primitives shared by the extractors and the url selectors -/

/-- The ASCII whitespace class of Python regex `\s` and of
`str.split()` / `str.strip()`. -/
def isPyWs (c : Char) : Bool :=
  c == ' ' || c == '\t' || c == '\n' || c == '\r' || c == '\x0b' || c == '\x0c'

/-- `str.lower()` over ASCII. -/
def lowerL (cs : List Char) : List Char := cs.map Char.toLower

/-- Case-sensitive literal pattern match at the head, returning the rest. -/
def prefMatch : List Char → List Char → Option (List Char)
  | [], rest => some rest
  | _ :: _, [] => none
  | p :: ps, c :: cs => if c == p then prefMatch ps cs else none

/-- Case-insensitive literal pattern match at the head (the pattern is given
in lowercase), returning the rest. -/
def prefMatchCI : List Char → List Char → Option (List Char)
  | [], rest => some rest
  | _ :: _, [] => none
  | p :: ps, c :: cs => if c.toLower == p then prefMatchCI ps cs else none

/-- Case-sensitive substring containment (Python `pat in s`). -/
def containsSub (pat : List Char) : List Char → Bool
  | [] => (prefMatch pat []).isSome
  | c :: cs => (prefMatch pat (c :: cs)).isSome || containsSub pat cs

/-- Case-insensitive substring containment (Python `pat in s.lower()` with a
lowercase pattern). -/
def containsCI (pat : List Char) : List Char → Bool
  | [] => (prefMatchCI pat []).isSome
  | c :: cs => (prefMatchCI pat (c :: cs)).isSome || containsCI pat cs

/-- `str.endswith` on already-lowered text. -/
def endsWithL (pat cs : List Char) : Bool := (prefMatch pat.reverse cs.reverse).isSome

/-- Value of a digit run, as Python `int` on a digit string. -/
def digitsVal (ds : List Char) : Nat := ds.foldl (fun n c => 10 * n + (c.toNat - 48)) 0

/-- Python `str.split()` with no separator: split on whitespace runs,
dropping empty fields. -/
def tokenizeAux : List Char → List Char → List (List Char)
  | [], acc => if acc.isEmpty then [] else [acc.reverse]
  | c :: cs, acc =>
      if isPyWs c then
        if acc.isEmpty then tokenizeAux cs [] else acc.reverse :: tokenizeAux cs []
      else tokenizeAux cs (c :: acc)

/-- Whitespace tokenization of a text. -/
def pySplitWs (cs : List Char) : List (List Char) := tokenizeAux cs []

/-- Python `word.isdigit()` over ASCII: nonempty and all digits. -/
def isDigitToken (t : List Char) : Bool := !t.isEmpty && t.all Char.isDigit

/-- The fallback scan shared verbatim by all three extraction sites: the first
whitespace-delimited purely numeric token whose value lies in [1,10]. -/
def firstTokenInRange (cs : List Char) : Option Nat :=
  (pySplitWs cs).findSome? fun t =>
    if isDigitToken t && decide (1 ≤ digitsVal t) && decide (digitsVal t ≤ 10)
    then some (digitsVal t) else none

/-- Try the app.py regex `severity\s*score:\s*(\d+)` (IGNORECASE) at the
current position; the capture is the maximal digit run. -/
def appMarkerHere (cs : List Char) : Option Nat :=
  match prefMatchCI "severity".toList cs with
  | none => none
  | some r1 =>
      match prefMatchCI "score:".toList (r1.dropWhile isPyWs) with
      | none => none
      | some r2 =>
          let ds := (r2.dropWhile isPyWs).takeWhile Char.isDigit
          if ds.isEmpty then none else some (digitsVal ds)

/-- `re.search` for the app.py regex: leftmost match. -/
def appMarkerSearch : List Char → Option Nat
  | [] => none
  | c :: cs =>
      match appMarkerHere (c :: cs) with
      | some n => some n
      | none => appMarkerSearch cs

/-- Try the gemini_processor regex `severity score:\s*(\d+)` (IGNORECASE,
literal single space) at the current position. -/
def gemMarkerHere (cs : List Char) : Option Nat :=
  match prefMatchCI "severity score:".toList cs with
  | none => none
  | some r =>
      let ds := (r.dropWhile isPyWs).takeWhile Char.isDigit
      if ds.isEmpty then none else some (digitsVal ds)

/-- `re.search` for the gemini_processor regex: leftmost match. -/
def gemMarkerSearch : List Char → Option Nat
  | [] => none
  | c :: cs =>
      match gemMarkerHere (c :: cs) with
      | some n => some n
      | none => gemMarkerSearch cs

/-- Severity extraction in app.py `analyze_event` (lines 111-123): regex
search for `severity\s*score:\s*(\d+)` case-insensitively; accept the capture
when it lies in [1,10]; otherwise fall back to the first in-range numeric
token; otherwise keep the initial value 5. -/
def appExtract (text : String) : Nat :=
  match appMarkerSearch text.toList with
  | some n =>
      if 1 ≤ n ∧ n ≤ 10 then n
      else
        match firstTokenInRange text.toList with
        | some m => m
        | none => 5
  | none =>
      match firstTokenInRange text.toList with
      | some m => m
      | none => 5

/-- Severity extraction in gemini_processor.py `analyze_event` (lines 78-93):
when the marker substring occurs in the lowercased text, take the regex
capture unconditionally — no range check and no fallback in that branch;
otherwise the token fallback; otherwise 5. -/
def gemAnalyzeExtract (text : String) : Nat :=
  if containsCI "severity score:".toList text.toList then
    match gemMarkerSearch text.toList with
    | some n => n
    | none => 5
  else
    match firstTokenInRange text.toList with
    | some m => m
    | none => 5

/-- The chunk between the first occurrence of `pat` and the next occurrence
(Python `s.split(pat)[1]` when `pat` occurs: the field ends at the second
occurrence or at the end of the string). -/
def upToPat (pat : List Char) : List Char → List Char
  | [] => []
  | c :: cs => if (prefMatch pat (c :: cs)).isSome then [] else c :: upToPat pat cs

/-- The text after the first case-sensitive occurrence of `pat`, or `none`
when `pat` does not occur (Python `s.split(pat)[1]` raising IndexError). -/
def afterFirstPat (pat : List Char) : List Char → Option (List Char)
  | [] => none
  | c :: cs =>
      match prefMatch pat (c :: cs) with
      | some r => some r
      | none => afterFirstPat pat cs

/-- Python `str.strip()` over ASCII. -/
def stripWs (cs : List Char) : List Char :=
  ((cs.dropWhile isPyWs).reverse.dropWhile isPyWs).reverse

/-- Severity re-extraction in the gemini_processor worker loop (lines
124-139): guard on the lowercased text, but split case-sensitively on
"severity score:" (IndexError when the exact-case marker is absent is caught,
leaving 5); take the second split field up to the first newline, strip it,
and accept it whenever it is purely numeric — again with no range check. -/
def gemWorkerExtract (text : String) : Nat :=
  if containsCI "severity score:".toList text.toList then
    match afterFirstPat "severity score:".toList text.toList with
    | none => 5
    | some rest =>
        let field := upToPat "severity score:".toList rest
        let scoreText := stripWs (field.takeWhile fun c => c != '\n')
        if isDigitToken scoreText then digitsVal scoreText else 5
  else
    match firstTokenInRange text.toList with
    | some m => m
    | none => 5

/-- Spec-side definition for the refinement comparison of claim C3, following
the spec's words: (1) case-insensitive search for the severity-score marker
(the app regex `severity\s*score:\s*(\d+)`), returning the captured integer
when it lies in [1,10]; (2) otherwise the first whitespace-delimited purely
numeric token in [1,10], in original order; (3) otherwise the fixed
default 5. -/
def specThreeStage (text : String) : Nat :=
  let stage1 : Option Nat :=
    match appMarkerSearch text.toList with
    | some n => if 1 ≤ n ∧ n ≤ 10 then some n else none
    | none => none
  match stage1 with
  | some n => n
  | none => (firstTokenInRange text.toList).getD 5

/-! ### Image-url selection (the Analyzer's image step) -/

/-- The per-url test of app.py `get_first_image_url`: truthiness, then
substring containment of an image extension anywhere in the lowercased url. -/
def appImgTest (u : String) : Bool :=
  (u != "") &&
    (containsSub ".png".toList (lowerL u.toList)
      || containsSub ".jpg".toList (lowerL u.toList)
      || containsSub ".jpeg".toList (lowerL u.toList))

/-- The per-url test of gemini_processor `get_first_image_url`: the lowercased
url ends with an image extension. -/
def gemImgTest (u : String) : Bool :=
  endsWithL ".png".toList (lowerL u.toList)
    || endsWithL ".jpg".toList (lowerL u.toList)
    || endsWithL ".jpeg".toList (lowerL u.toList)

/-- The loop body of app.py `get_first_image_url`: `source.get('url', '')`,
truthiness check, then the substring test on `url.lower()` (which raises
AttributeError on a truthy non-string url). -/
def appImgLoop : List PyVal → Except PyErr (Option String)
  | [] => Except.ok none
  | source :: rest =>
      match source.dictGet "url" (PyVal.pstr "") with
      | Except.error e => Except.error e
      | Except.ok url =>
          if url.truthy then
            match url with
            | .pstr s => if appImgTest s then Except.ok (some s) else appImgLoop rest
            | _ => Except.error PyErr.attributeError
          else appImgLoop rest

/-- The traversal inside app.py `get_first_image_url`, before its
catch-all `except`. -/
def appGetFirstImageUrlRun (event : PyVal) : Except PyErr (Option String) :=
  match event.dictGet "raw_data" (PyVal.pdict []) with
  | Except.error e => Except.error e
  | Except.ok rd =>
      match rd.dictGet "sources" (PyVal.plist []) with
      | Except.error e => Except.error e
      | Except.ok sources =>
          match sources.iterElems with
          | Except.error e => Except.error e
          | Except.ok elems => appImgLoop elems

/-- `get_first_image_url` from app.py (lines 34-45): every exception raised by
the traversal is caught and yields None. -/
def appGetFirstImageUrl (event : PyVal) : Option String :=
  match appGetFirstImageUrlRun event with
  | Except.ok r => r
  | Except.error _ => none

/-- The loop body of gemini_processor `get_first_image_url`:
`source.get('url', '').lower().endswith(...)`; when the test succeeds the
source returns `source['url']`, which in that case is the same string the
test examined (a url absent from the dict yields '' and never passes the
endswith test). -/
def gemImgLoop : List PyVal → Except PyErr (Option String)
  | [] => Except.ok none
  | source :: rest =>
      match source.dictGet "url" (PyVal.pstr "") with
      | Except.error e => Except.error e
      | Except.ok url =>
          match url with
          | .pstr s => if gemImgTest s then Except.ok (some s) else gemImgLoop rest
          | _ => Except.error PyErr.attributeError

/-- `get_first_image_url` from gemini_processor.py (lines 25-30): the
subscript `event['raw_data']` may raise (there is no local except here). -/
def gemGetFirstImageUrlRun (event : PyVal) : Except PyErr (Option String) :=
  match event.subscript "raw_data" with
  | Except.error e => Except.error e
  | Except.ok rd =>
      match rd.dictGet "sources" (PyVal.plist []) with
      | Except.error e => Except.error e
      | Except.ok sources =>
          match sources.iterElems with
          | Except.error e => Except.error e
          | Except.ok elems => gemImgLoop elems

/-- Spec-side definition for the refinement comparison of claim C5, following
the spec's words: the first source URL whose extension denotes an image,
i.e. whose lowercased URL ends with .png, .jpg or .jpeg; absence is not an
error. -/
def specImageSelect (urls : List String) : Option String :=
  urls.find? fun u =>
    endsWithL ".png".toList (lowerL u.toList)
      || endsWithL ".jpg".toList (lowerL u.toList)
      || endsWithL ".jpeg".toList (lowerL u.toList)

/-- An event document whose raw_data.sources is a well-formed list of
url-carrying dicts, as produced by ingestion from the upstream feed. -/
def mkSourcesEvent (urls : List String) : PyVal :=
  PyVal.pdict
    [("raw_data", PyVal.pdict
      [("sources", PyVal.plist (urls.map fun u => PyVal.pdict [("url", PyVal.pstr u)]))])]

/-! ### The Analyzer (app.py analyze_event) -/

/-- Outcome of the image HTTP fetch (`requests.get(img_url, timeout=10)`
followed by `Image.open`). -/
inductive FetchOutcome where
  | okImage
  | badStatus
  | fetchError
deriving DecidableEq

/-- The value `analyze_event` returns on success:
`{"severity": ..., "analysis": ..., "processed": True}`. -/
structure AnalysisResult where
  severity : Nat
  analysis : String
  processed : Bool
deriving DecidableEq

/-- The pre-invocation field extraction of app.py `analyze_event` (lines
60-64 and 86): each field through `safe_get` with the source's defaults, and
the image url through the exception-catching selector. -/
structure PromptData where
  title : PyVal
  description : PyVal
  event_type : PyVal
  coordinates : PyVal
  timestamp : PyVal
  imgUrl : Option String

/-- The data `analyze_event` gathers before the external invocation. -/
def appPromptData (event : PyVal) : PromptData :=
  { title := safe_get event ["raw_data", "title"] (PyVal.pstr "Untitled Event"),
    description := safe_get event ["raw_data", "description"] (PyVal.pstr "No description"),
    event_type := safe_get event ["type"] (PyVal.pstr "Unknown"),
    coordinates := safe_get event ["location", "coordinates"]
      (PyVal.plist [PyVal.pint 0, PyVal.pint 0]),
    timestamp := safe_get event ["timestamp"] (PyVal.pstr "Unknown date"),
    imgUrl := appGetFirstImageUrl event }

/-- `analyze_event` from app.py with its two external effects as parameters:
`fetch` is the image request outcome and `invoke b` the single
`generate_content` outcome when called with (`b = true`) or without an image
part; `none` models a raised invocation exception.  Mirroring the source
control flow, an image url only contributes an image part when the fetch
succeeds, image-fetch problems are swallowed by the inner `except`, and only
an invocation failure returns the failure signal `none`. -/
def appAnalyzeEvent (event : PyVal) (fetch : FetchOutcome)
    (invoke : Bool → Option String) : Option AnalysisResult :=
  let imgPart : Bool := (appPromptData event).imgUrl.isSome && fetch == FetchOutcome.okImage
  match invoke imgPart with
  | none => none
  | some text => some { severity := appExtract text, analysis := text, processed := true }

/-! ### The Event Store and the two Workers -/

/-- The `location` subdocument written by the ingestor. -/
structure LocDoc where
  type : String
  coordinates : List Int
deriving DecidableEq

/-- An event document of the `disaster_events` collection.  `α` is the type of
the opaque raw payload.  Absent fields are modelled as `none` (`processed`
absent as `false`: the only value ever written to it is `True`). -/
structure EventDoc (α : Type) where
  id : Nat
  type : String
  location : LocDoc
  timestamp : String
  raw_data : α
  severity : Option Nat
  analysis : Option String
  processed : Bool
  last_processed : Option Int
deriving DecidableEq

/-- Per-record commit of app.py `background_processor` (lines 158-174): on a
successful analysis, `$set` severity, analysis, processed=True and
last_processed=now; on failure (`None`) the source performs no update at
all. -/
def appCommit (result : Option AnalysisResult) (now : Int) {α : Type}
    (d : EventDoc α) : EventDoc α :=
  match result with
  | some r =>
      { d with severity := some r.severity, analysis := some r.analysis,
               processed := true, last_processed := some now }
  | none => d

/-- Per-record commit of the gemini_processor worker loop (lines 141-153): on
success `$set` severity (re-extracted from the analysis text), analysis and
last_processed — the processed flag is not written; on failure `$set`
processed=True only. -/
def gemCommit (analysisText : Option String) (now : Int) {α : Type}
    (d : EventDoc α) : EventDoc α :=
  match analysisText with
  | some text =>
      { d with severity := some (gemWorkerExtract text), analysis := some text,
               last_processed := some now }
  | none => { d with processed := true }

/-- Discovery in app.py: `find({"processed": {"$ne": True}}).limit(n)`. -/
def appFetchBatch {α : Type} (store : List (EventDoc α)) (n : Nat) : List (EventDoc α) :=
  (store.filter fun d => !d.processed).take n

/-- Discovery in gemini_processor.py: `find({"severity": None}).limit(n)`
(null and missing severity both match). -/
def gemFetchBatch {α : Type} (store : List (EventDoc α)) (n : Nat) : List (EventDoc α) :=
  (store.filter fun d => d.severity.isNone).take n

/-- `update_one` on `_id` with a `$set`, ids assumed unique: rewrite the
matching document in place.  No operation of the source deletes documents. -/
def updateById {α : Type} (store : List (EventDoc α)) (i : Nat)
    (f : EventDoc α → EventDoc α) : List (EventDoc α) :=
  store.map fun d => if d.id = i then f d else d

/-- The fields never touched by any worker commit. -/
def frameFields {α : Type} (d : EventDoc α) : Nat × String × LocDoc × String × α :=
  (d.id, d.type, d.location, d.timestamp, d.raw_data)

/-! ### The stats endpoint (app.py get_stats) -/

/-- The JSON object returned by `/api/stats`. -/
structure StatsDoc where
  total_events : Nat
  processed : Nat
  high_severity : Nat
  last_updated : Int
deriving DecidableEq

/-- `get_stats` from app.py (lines 195-204): `count_documents({})`,
`count_documents({"processed": True})`, `count_documents({"severity":
{"$gt": 7}})` (a null severity does not match `$gt`), and `time.time()`. -/
def get_stats {α : Type} (store : List (EventDoc α)) (now : Int) : StatsDoc :=
  { total_events := store.length,
    processed := (store.filter fun d => d.processed).length,
    high_severity := (store.filter fun d =>
      match d.severity with
      | some s => decide (7 < s)
      | none => false).length,
    last_updated := now }

/-! ### Ingestion (disaster_ingest.py document preparation loop) -/

/-- One geometry entry of an upstream feed event; a missing coordinates or
date key is `none`.  Coordinate values are opaque to the pipeline and are
modelled as integers. -/
structure UpGeometry where
  coordinates : Option (List Int)
  date : Option String
deriving DecidableEq

/-- One upstream feed entry: the category list (each category's optional
title) and the geometry list.  A missing categories or geometry key and an
empty list both raise on `[0]` and are collapsed to the empty list. -/
structure UpEntry where
  categories : List (Option String)
  geometry : List UpGeometry
deriving DecidableEq

/-- Document preparation in disaster_ingest.py (lines 49-67): build the
insertion document in source order, skipping the entry when any required key
access raises KeyError/IndexError.  The store-assigned `_id` is modelled as
the placeholder 0. -/
def prepareDoc (e : UpEntry) : Option (EventDoc UpEntry) := do
  let otitle ← e.categories.head?
  let title ← otitle
  let g ← e.geometry.head?
  let cs ← g.coordinates
  let c0 ← cs.get? 0
  let c1 ← cs.get? 1
  let dt ← g.date
  some { id := 0, type := title,
         location := { type := "Point", coordinates := [c0, c1] },
         timestamp := dt, raw_data := e,
         severity := none, analysis := none,
         processed := false, last_processed := none }

/-- The whole preparation loop: per-entry failures are skipped, the batch
continues. -/
def prepareDocs (l : List UpEntry) : List (EventDoc UpEntry) := l.filterMap prepareDoc

/-- A freshly ingested document as the workers see it. -/
def freshDoc : EventDoc String :=
  { id := 1, type := "Wildfires",
    location := { type := "Point", coordinates := [10, 20] },
    timestamp := "2024-01-01", raw_data := "payload",
    severity := none, analysis := none, processed := false, last_processed := none }

/-- A feed entry with no geometry: preparation raises IndexError and the
entry is skipped. -/
def badEntry : UpEntry := { categories := [some "Severe Storms"], geometry := [] }

/-- A well-formed feed entry. -/
def goodEntry : UpEntry :=
  { categories := [some "Wildfires"],
    geometry := [{ coordinates := some [3, 4, 9], date := some "2024-01-01T00:00:00Z" }] }

/-! ## Shared helper lemmas -/

/-- `safe_get` yields its default whenever the underlying traversal raises. -/
theorem safe_get_error (v : PyVal) (ks : List String) (d : PyVal) (e : PyErr)
    (h : safeGetRun v ks = Except.error e) : safe_get v ks d = d := by
  simp [safe_get, h]

/-- The app worker commit changes no non-enrichment field. -/
theorem frame_appCommit {α : Type} (r : Option AnalysisResult) (now : Int) (d : EventDoc α) :
    frameFields (appCommit r now d) = frameFields d := by
  cases r <;> rfl

/-- The gemini worker commit changes no non-enrichment field. -/
theorem frame_gemCommit {α : Type} (t : Option String) (now : Int) (d : EventDoc α) :
    frameFields (gemCommit t now d) = frameFields d := by
  cases t <;> rfl

/-- An update through a frame-preserving per-document function preserves the
frame of the whole store. -/
theorem frame_updateById {α : Type} (store : List (EventDoc α)) (i : Nat)
    (f : EventDoc α → EventDoc α) (hf : ∀ d, frameFields (f d) = frameFields d) :
    (updateById store i f).map frameFields = store.map frameFields := by
  induction store with
  | nil => rfl
  | cons d rest ih =>
      simp only [updateById, List.map_cons, List.map_map] at *
      refine congrArg₂ List.cons ?_ ih
      by_cases h : d.id = i <;> simp [h, hf]

/-- The gemini url loop on a well-formed source list is the endswith
selection. -/
theorem gemImgLoop_wf (urls : List String) :
    gemImgLoop (urls.map fun u => PyVal.pdict [("url", PyVal.pstr u)]) =
      Except.ok (urls.find? gemImgTest) := by
  induction urls with
  | nil => rfl
  | cons u rest ih =>
      simp only [List.map_cons, gemImgLoop, PyVal.dictGet, List.lookup, List.find?]
      by_cases h : gemImgTest u <;> simp [h, ih]

/-- The app url loop on a well-formed source list is the substring
selection. -/
theorem appImgLoop_wf (urls : List String) :
    appImgLoop (urls.map fun u => PyVal.pdict [("url", PyVal.pstr u)]) =
      Except.ok (urls.find? appImgTest) := by
  induction urls with
  | nil => rfl
  | cons u rest ih =>
      simp only [List.map_cons, appImgLoop, PyVal.dictGet, List.lookup, List.find?]
      by_cases hu : u = ""
      · subst hu
        simp [PyVal.truthy, appImgTest, ih]
      · by_cases h : appImgTest u
        · simp [PyVal.truthy, hu, h]
        · simp [PyVal.truthy, hu, h, ih]

/-! ## Claim theorems -/

/-- C1: refuted on the source — the claim asserts that every record a worker
commits as enriched carries a severity in [1,10] and a complete status, for
every possible analysis text.  For the analysis text "severity score: 15" the
gemini_processor worker re-extraction accepts 15 without a range check, the
commit stores severity 15 outside [1,10], and the processed status flag stays
unset. -/
theorem c1_gemini_worker_commits_severity_15 :
    gemWorkerExtract "severity score: 15" = 15 ∧
    ¬ (gemWorkerExtract "severity score: 15" ≤ 10) ∧
    (gemCommit (some "severity score: 15") 100 freshDoc).severity = some 15 ∧
    (gemCommit (some "severity score: 15") 100 freshDoc).processed = false := by
  refine ⟨by decide, by decide, by decide, by decide⟩

/-- C2: refuted on the source — after an Analyzer failure the gemini worker
sets processed=True but leaves severity null, so its own discovery filter
severity=None still selects the record; and the app worker performs no commit
at all on failure, leaving the record selectable by its discovery filter
processed-not-True. -/
theorem c2_poisoned_record_reselected :
    (gemCommit none 100 freshDoc).processed = true ∧
    (gemCommit none 100 freshDoc).severity = none ∧
    (gemCommit none 100 freshDoc).analysis = none ∧
    gemFetchBatch [gemCommit none 100 freshDoc] 50 = [gemCommit none 100 freshDoc] ∧
    appCommit none 100 freshDoc = freshDoc ∧
    appFetchBatch [appCommit none 100 freshDoc] 10 = [appCommit none 100 freshDoc] := by
  refine ⟨by decide, by decide, by decide, by decide, by decide, by decide⟩

/-- C3 counterexample: the gemini_processor analyze_event extractor does not
follow the claimed three-stage procedure — on "severity score: high and 4
dead" the marker substring is present but captures no digits, and instead of
falling back to the token scan (which yields 4, as the spec procedure and the
app extractor do) it returns 5. -/
theorem c3_gemini_extractor_skips_fallback :
    gemAnalyzeExtract "severity score: high and 4 dead" = 5 ∧
    specThreeStage "severity score: high and 4 dead" = 4 ∧
    appExtract "severity score: high and 4 dead" = 4 := by
  refine ⟨by decide, by decide, by decide⟩

/-- C3 (amended): the app.py Severity Extractor computes its result by
exactly the spec three-stage procedure, and satisfies the three scenario
evaluations of the claim. -/
theorem c3_app_extractor_three_stage :
    (∀ text : String, appExtract text = specThreeStage text) ∧
    appExtract "Severity score: 9, details..." = 9 ∧
    appExtract "no marker here but 4 is notable" = 4 ∧
    appExtract "nothing numeric at all" = 5 := by
  refine ⟨fun text => ?_, by decide, by decide, by decide⟩
  unfold appExtract specThreeStage
  cases appMarkerSearch text.toList with
  | none => cases firstTokenInRange text.toList <;> simp
  | some n =>
      by_cases h : 1 ≤ n ∧ n ≤ 10
      · simp [h]
      · cases firstTokenInRange text.toList <;> simp [h]

/-- C4 counterexample: on a successful analysis of the text "report" the
gemini worker commit writes severity, analysis and last_processed, yet the
processed status flag is left at its ingest value false — the claim that the
commit sets all four enrichment fields including status=complete fails. -/
theorem c4_gemini_success_commit_leaves_flag :
    (gemCommit (some "report") 100 freshDoc).severity = some 5 ∧
    (gemCommit (some "report") 100 freshDoc).analysis = some "report" ∧
    (gemCommit (some "report") 100 freshDoc).last_processed = some 100 ∧
    (gemCommit (some "report") 100 freshDoc).processed = false := by
  refine ⟨by decide, by decide, by decide, by decide⟩

/-- C4 (amended): on Analyzer-plus-Extractor success the app worker commit
sets all four enrichment fields (severity, analysis, processed=True,
last_processed=commit time); the gemini worker commit sets severity, analysis
and last_processed=commit time but never writes the processed flag, so its
record is complete only under the null-severity-sentinel representation —
its own discovery no longer selects it. -/
theorem c4_commit_sets_enrichment_fields :
    ∀ (α : Type) (d : EventDoc α) (r : AnalysisResult) (now : Int) (text : String),
      appCommit (some r) now d =
        { d with severity := some r.severity, analysis := some r.analysis,
                 processed := true, last_processed := some now } ∧
      gemCommit (some text) now d =
        { d with severity := some (gemWorkerExtract text), analysis := some text,
                 last_processed := some now } ∧
      (gemCommit (some text) now d).processed = d.processed ∧
      (gemCommit (some text) now d).severity ≠ none ∧
      gemFetchBatch [gemCommit (some text) now d] 50 = [] := by
  intro α d r now text
  refine ⟨rfl, rfl, rfl, by simp [gemCommit], by simp [gemFetchBatch, gemCommit]⟩

/-- C5 counterexample: the app selector accepts a URL that merely contains
".jpg" as a substring although its extension is ".html", while the spec-side
extension selection rejects it — image selection is not extension-based in
app.py. -/
theorem c5_app_selector_matches_substring :
    appGetFirstImageUrl (mkSourcesEvent ["http://e.com/page.jpg.html"]) =
      some "http://e.com/page.jpg.html" ∧
    specImageSelect ["http://e.com/page.jpg.html"] = none := by
  refine ⟨by decide, by decide⟩

/-- C5 (amended): on any well-formed source list, the gemini selector returns
exactly the first URL whose lowercased form ends with an image extension
(none, without an error, when there is no such URL), while the app selector
returns the first truthy URL containing an image extension as a substring of
its lowercased form. -/
theorem c5_image_selection_semantics :
    ∀ urls : List String,
      gemGetFirstImageUrlRun (mkSourcesEvent urls) = Except.ok (specImageSelect urls) ∧
      appGetFirstImageUrl (mkSourcesEvent urls) = urls.find? appImgTest := by
  intro urls
  constructor
  · have hspec : specImageSelect urls = urls.find? gemImgTest := rfl
    simp [mkSourcesEvent, gemGetFirstImageUrlRun, PyVal.subscript, PyVal.dictGet,
      List.lookup, PyVal.iterElems, gemImgLoop_wf, hspec]
  · simp [mkSourcesEvent, appGetFirstImageUrl, appGetFirstImageUrlRun, PyVal.dictGet,
      List.lookup, PyVal.iterElems, appImgLoop_wf]

/-- C6: the app Analyzer returns the failure signal exactly when the single
external invocation fails, returns the full result (extracted severity plus
the whole text) on success, and a non-ok image fetch never aborts the
analysis — the invocation then runs text-only. -/
theorem c6_failure_iff_invocation_failure :
    ∀ (event : PyVal) (fetch : FetchOutcome) (invoke : Bool → Option String),
      (appAnalyzeEvent event fetch invoke = none ↔
        invoke ((appPromptData event).imgUrl.isSome && fetch == FetchOutcome.okImage) = none) ∧
      (fetch ≠ FetchOutcome.okImage →
        appAnalyzeEvent event fetch invoke =
          (invoke false).map fun t =>
            { severity := appExtract t, analysis := t, processed := true }) ∧
      (∀ t, invoke ((appPromptData event).imgUrl.isSome && fetch == FetchOutcome.okImage) = some t →
        appAnalyzeEvent event fetch invoke =
          some { severity := appExtract t, analysis := t, processed := true }) := by
  intro event fetch invoke
  refine ⟨?_, ?_, ?_⟩
  · unfold appAnalyzeEvent
    cases h : invoke ((appPromptData event).imgUrl.isSome && fetch == FetchOutcome.okImage) <;>
      simp [h]
  · intro hf
    have hb : (fetch == FetchOutcome.okImage) = false := by
      cases fetch <;> simp_all
    unfold appAnalyzeEvent
    rw [hb]
    cases h : invoke false <;> simp [h]
  · intro t ht
    simp [appAnalyzeEvent, ht]

/-- C6 witness: an event with an image link whose fetch returns a bad status
is still analyzed text-only and succeeds. -/
theorem c6_witness :
    appAnalyzeEvent (mkSourcesEvent ["x.png"]) FetchOutcome.badStatus (fun _ => some "ok 3") =
      some { severity := 3, analysis := "ok 3", processed := true } := by
  have h := (c6_failure_iff_invocation_failure (mkSourcesEvent ["x.png"])
    FetchOutcome.badStatus (fun _ => some "ok 3")).2.1 (by decide)
  rw [h]
  decide

/-- C7: every worker commit — app success, app failure (no-op), gemini
success and gemini poison — leaves the id, type, location, timestamp and raw
payload of every document unchanged, and no commit changes the number of
stored documents. -/
theorem c7_commits_touch_only_enrichment_fields :
    ∀ (α : Type) (store : List (EventDoc α)) (i : Nat) (r : Option AnalysisResult)
      (t : Option String) (now : Int),
      (updateById store i (appCommit r now)).map frameFields = store.map frameFields ∧
      (updateById store i (gemCommit t now)).map frameFields = store.map frameFields ∧
      (updateById store i (appCommit r now)).length = store.length ∧
      (updateById store i (gemCommit t now)).length = store.length := by
  intro α store i r t now
  refine ⟨frame_updateById store i _ (frame_appCommit r now),
          frame_updateById store i _ (frame_gemCommit t now),
          by simp [updateById], by simp [updateById]⟩

/-- C8: an upstream entry on which preparation raises (missing category
title, geometry, coordinates or date) is skipped while the rest of the batch
is still processed, and a well-formed entry yields exactly one document whose
location is a Point built from the first two coordinates of the entry first
geometry, with severity unset. -/
theorem c8_ingest_skip_and_wellformed :
    ∀ (xs ys : List UpEntry) (e : UpEntry),
      (prepareDoc e = none → prepareDocs (xs ++ e :: ys) = prepareDocs (xs ++ ys)) ∧
      (∀ doc : EventDoc UpEntry, prepareDoc e = some doc →
        prepareDocs [e] = [doc] ∧
        doc.location.type = "Point" ∧ doc.severity = none ∧ doc.analysis = none ∧
        doc.processed = false ∧ doc.raw_data = e ∧
        ∃ g cs c0 c1, e.geometry.head? = some g ∧ g.coordinates = some cs ∧
          cs.get? 0 = some c0 ∧ cs.get? 1 = some c1 ∧
          doc.location.coordinates = [c0, c1]) := by
  intro xs ys e
  constructor
  · intro h
    simp [prepareDocs, List.filterMap_append, List.filterMap_cons, h]
  · intro doc h
    have hsing : prepareDocs [e] = [doc] := by
      simp [prepareDocs, List.filterMap_cons, h]
    simp only [prepareDoc, Option.bind_eq_bind, Option.bind_eq_some, Option.some.injEq] at h
    obtain ⟨otitle, h1, h⟩ := h
    obtain ⟨title, h2, h⟩ := h
    obtain ⟨g, h3, h⟩ := h
    obtain ⟨cs, h4, h⟩ := h
    obtain ⟨c0, h5, h⟩ := h
    obtain ⟨c1, h6, h⟩ := h
    obtain ⟨dt, h7, hdoc⟩ := h
    subst hdoc
    exact ⟨hsing, rfl, rfl, rfl, rfl, rfl, g, cs, c0, c1, h3, h4, h5, h6, rfl⟩

/-- C8 witness: a geometry-less entry is skipped while the rest of the batch
is processed, and a well-formed entry yields exactly its one prepared
document. -/
theorem c8_witness :
    prepareDocs ([] ++ badEntry :: [goodEntry]) = prepareDocs ([] ++ [goodEntry]) ∧
    prepareDocs [goodEntry] =
      [{ id := 0, type := "Wildfires",
         location := { type := "Point", coordinates := [3, 4] },
         timestamp := "2024-01-01T00:00:00Z", raw_data := goodEntry,
         severity := none, analysis := none, processed := false, last_processed := none }] := by
  constructor
  · exact (c8_ingest_skip_and_wellformed [] [goodEntry] badEntry).1 (by decide)
  · exact ((c8_ingest_skip_and_wellformed [] [] goodEntry).2 _ (by decide)).1

/-- C9: for every store state the stats endpoint reports exactly the total
count, the count of records with the processed flag, the count of records
with severity strictly above 7, and the snapshot time. -/
theorem c9_stats_reports_exact_counts :
    ∀ (α : Type) (store : List (EventDoc α)) (now : Int),
      get_stats store now =
        { total_events := store.length,
          processed := store.countP (fun d => d.processed),
          high_severity := store.countP (fun d =>
            match d.severity with
            | some s => decide (7 < s)
            | none => false),
          last_updated := now } := by
  intro α store now
  simp [get_stats, List.countP_eq_length_filter]

/-- C10: for every input record of any shape, the pre-invocation phase of the
app Analyzer substitutes the source fixed defaults whenever a safe_get
traversal raises, and the image selector yields None instead of propagating
any exception of its traversal. -/
theorem c10_pre_invocation_never_raises :
    ∀ event : PyVal,
      (∀ e, safeGetRun event ["raw_data", "title"] = Except.error e →
        (appPromptData event).title = PyVal.pstr "Untitled Event") ∧
      (∀ e, safeGetRun event ["raw_data", "description"] = Except.error e →
        (appPromptData event).description = PyVal.pstr "No description") ∧
      (∀ e, safeGetRun event ["type"] = Except.error e →
        (appPromptData event).event_type = PyVal.pstr "Unknown") ∧
      (∀ e, safeGetRun event ["location", "coordinates"] = Except.error e →
        (appPromptData event).coordinates = PyVal.plist [PyVal.pint 0, PyVal.pint 0]) ∧
      (∀ e, safeGetRun event ["timestamp"] = Except.error e →
        (appPromptData event).timestamp = PyVal.pstr "Unknown date") ∧
      (∀ e, appGetFirstImageUrlRun event = Except.error e →
        (appPromptData event).imgUrl = none) := by
  intro event
  refine ⟨fun e h => safe_get_error _ _ _ _ h, fun e h => safe_get_error _ _ _ _ h,
    fun e h => safe_get_error _ _ _ _ h, fun e h => safe_get_error _ _ _ _ h,
    fun e h => safe_get_error _ _ _ _ h, fun e h => ?_⟩
  simp [appPromptData, appGetFirstImageUrl, h]

/-- C10 witness: on the wholly malformed record "junk" (a bare string) all
five extractions yield their defaults and the image selector yields None. -/
theorem c10_witness :
    (appPromptData (PyVal.pstr "junk")).title = PyVal.pstr "Untitled Event" ∧
    (appPromptData (PyVal.pstr "junk")).description = PyVal.pstr "No description" ∧
    (appPromptData (PyVal.pstr "junk")).event_type = PyVal.pstr "Unknown" ∧
    (appPromptData (PyVal.pstr "junk")).coordinates = PyVal.plist [PyVal.pint 0, PyVal.pint 0] ∧
    (appPromptData (PyVal.pstr "junk")).timestamp = PyVal.pstr "Unknown date" ∧
    (appPromptData (PyVal.pstr "junk")).imgUrl = none := by
  obtain ⟨h1, h2, h3, h4, h5, h6⟩ := c10_pre_invocation_never_raises (PyVal.pstr "junk")
  exact ⟨h1 PyErr.typeError rfl, h2 PyErr.typeError rfl, h3 PyErr.typeError rfl,
    h4 PyErr.typeError rfl, h5 PyErr.typeError rfl, h6 PyErr.attributeError rfl⟩

end CrisisNav
